import Mathlib

/-!
Verification of the Spawrious dataset-preparation module (`spawrious.py`).

The development shallowly embeds the module's pure logic:
* Python string primitives used by the code (`str.lower`, `str.split('_')[0]`,
  `str.replace`, `file.readlines`, `os.path.join`);
* the download/extract state machine of `_download_dataset_if_not_available`
  together with `_extract_dataset_from_tar`, over an explicit state of the
  dataset root directory (tar files present, `datasets.txt` content, and
  cumulative logs of fetches, tar writes and extractions);
* the combination-resolution logic of `SpawriousBenchmark.__init__` for
  dict-shaped train/test combinations (image folders, per-class sample caps,
  group-index joint datasets, final `[test] + train` record);
* `SpawriousBenchmark.build_type1_combination`, `prepend_path`, and the
  name validation of `download_spawrious_dataset` / `get_torch_dataset`.

External library behaviour (torchvision `ImageFolder`, the filesystem) is
modelled as an abstract environment mapping a folder path to its listed
samples and class-to-index assignment; network fetches are modelled as
always succeeding (transfer errors are out of scope of the claims treated
here), while extraction success/failure is an explicit parameter.
-/

namespace Spawrious

/-! ### Python string primitives -/

/-- Scan of `str.replace`: replace every non-overlapping occurrence of `pat`
(scanned left to right) by `rep`, as Python's `str.replace` does for a
non-empty pattern.  The fuel argument is only there to make the recursion
structural (each step consumes at least one character, so fuel equal to the
length of the scanned list never runs out). -/
def replaceAllAux (pat rep : List Char) : Nat → List Char → List Char
  | _, [] => []
  | 0, l => l
  | fuel + 1, c :: rest =>
    if pat ≠ [] ∧ pat.isPrefixOf (c :: rest) = true then
      rep ++ replaceAllAux pat rep fuel (rest.drop (pat.length - 1))
    else
      c :: replaceAllAux pat rep fuel rest

/-- Python `s.replace(pat, rep)` (for the non-empty patterns used in the code). -/
def pyReplace (s pat rep : String) : String :=
  ⟨replaceAllAux pat.data rep.data s.data.length s.data⟩

/-- Python `s.lower()` (the dataset names in scope are ASCII). -/
def pyLower (s : String) : String :=
  ⟨s.data.map Char.toLower⟩

/-- Python `s.split('_')[0]`: the characters before the first underscore. -/
def firstComponent (s : String) : String :=
  ⟨s.data.takeWhile (fun c => c != '_')⟩

/-- Python `os.path.join(a, b)` on POSIX, for a single extra component. -/
def pathJoin (a b : String) : String :=
  if b.data.head? = some '/' then b
  else if a = "" then b
  else if a.data.getLast? = some '/' then a ++ b
  else a ++ "/" ++ b

/-- Split a character stream into lines, each keeping its `'\n'` terminator
(the final line has none if the stream does not end in `'\n'`), exactly as
Python's `file.readlines` does. -/
def linesKeep : List Char → List (List Char)
  | [] => []
  | c :: rest =>
    if c = '\n' then ['\n'] :: linesKeep rest
    else
      match linesKeep rest with
      | [] => [[c]]
      | l :: ls => (c :: l) :: ls

/-- Python `f.readlines()` of a file whose content is `s`. -/
def pyReadlines (s : String) : List String :=
  (linesKeep s.data).map (fun l => ⟨l⟩)

/-! ### Download / extraction state machine -/

/-- State of a dataset root directory, plus cumulative event logs.

* `tars`: tar archive filenames currently present in the directory;
* `manifest`: content of `datasets.txt` if it exists;
* `writtenTars`: log of tar files written by a fetch (`open(dst, "wb")`);
* `fetched`: log of URLs opened by `urllib.request.urlopen`;
* `extracted`: log of tar files successfully extracted. -/
structure DLState where
  tars : List String
  manifest : Option String
  writtenTars : List String
  fetched : List String
  extracted : List String
deriving DecidableEq

/-- The literal `url_dict` of `_download_dataset_if_not_available`. -/
def urlLookup (name : String) : Option String :=
  if name = "entire_dataset" then
    some "https://www.dropbox.com/s/wc9mwza5yk66i83/spawrious224.tar.gz?dl=1"
  else if name = "o2o_easy" then
    some "https://www.dropbox.com/s/bonf1elisg2ohiq/spawrious__o2o_easy.tar.gz?dl=1"
  else if name = "o2o_medium" then
    some "https://www.dropbox.com/s/xfea065mhh70me1/spawrious__o2o_medium.tar.gz?dl=1"
  else if name = "o2o_hard" then
    some "https://www.dropbox.com/s/m5eeqp0nsc31nyt/spawrious__o2o_hard.tar.gz?dl=1"
  else if name = "m2m" then
    some "https://www.dropbox.com/s/spwszi0rxbf53f8/spawrious__m2m.tar.gz?dl=1"
  else none

/-- Name normalization at the top of `_download_dataset_if_not_available`:
lowercase, then collapse any `m2m_*` identifier to `m2m`. -/
def normalizeName (s : String) : String :=
  let n := pyLower s
  if firstComponent n = "m2m" then "m2m" else n

/-- `f"spawrious__{dataset_name}.tar.gz"`. -/
def tarFileName (name : String) : String :=
  "spawrious__" ++ name ++ ".tar.gz"

/-- The manifest check of the code: `dataset_name in set(f.readlines())` or
`'entire_dataset' in set(f.readlines())`.  Note `readlines` keeps newline
terminators. -/
def isMarkedExtracted (name content : String) : Bool :=
  decide (name ∈ pyReadlines content) || decide ("entire_dataset" ∈ pyReadlines content)

/-- Appending `'\n' + dataset_name` to `datasets.txt` (mode `'a'` creates the
file with empty prior content when absent). -/
def appendManifest (name : String) (s : DLState) : DLState :=
  { s with manifest := some (s.manifest.getD "" ++ "\n" ++ name) }

/-- Effect of a completed `_extract_dataset_from_tar`: log the extraction and
delete the tar file when `remove_tar_after_extracting`. -/
def afterExtract (rm : Bool) (tarName : String) (s : DLState) : DLState :=
  { s with
    extracted := s.extracted ++ [tarName]
    tars := if rm then s.tars.filter (fun t => t != tarName) else s.tars }

/-- `_extract_dataset_from_tar` followed by the manifest append that the caller
performs right after it.  When extraction raises (`extractOk = false`) the
exception propagates with the directory state at the raise: in particular no
manifest append happens. -/
def extractAndMark (extractOk rm : Bool) (tarName name : String) (s : DLState) :
    Except DLState DLState :=
  if extractOk then Except.ok (appendManifest name (afterExtract rm tarName s))
  else Except.error s

/-- `_download_dataset_if_not_available(dataset_name, data_dir, rm)`.

`Except.error` is a propagated exception (unknown-name `KeyError`, or an
extraction failure), carrying the directory state at the raise. -/
def pyDownload (extractOk rm : Bool) (nameRaw : String) (s : DLState) :
    Except DLState DLState :=
  let name := normalizeName nameRaw
  let tarName := tarFileName name
  match urlLookup name with
  | none => Except.error s
  | some url =>
    if tarName ∈ s.tars then
      match s.manifest with
      | some content =>
        if isMarkedExtracted name content then Except.ok s
        else extractAndMark extractOk rm tarName name s
      | none => extractAndMark extractOk rm tarName name s
    else
      let skip := match s.manifest with
        | some content => isMarkedExtracted name content
        | none => false
      if skip then Except.ok s
      else
        let s1 := { s with
          fetched := s.fetched ++ [url]
          writtenTars := s.writtenTars ++ [tarName]
          tars := s.tars ++ [tarName] }
        extractAndMark extractOk rm tarName name s1

/-- Following the spec's words (for comparison with `isMarkedExtracted`): the
lines of the manifest with their newline terminators stripped. -/
def manifestLines (content : String) : List String :=
  (linesKeep content.data).map
    (fun l => ⟨if l.getLast? = some '\n' then l.dropLast else l⟩)

/-- Following the spec's words: "true iff a manifest line equals `name` or
equals the superset marker `entire_dataset`". -/
def specLineExtracted (name content : String) : Bool :=
  decide (name ∈ manifestLines content) || decide ("entire_dataset" ∈ manifestLines content)

/-! ### Image datasets and combination resolution -/

/-- The torch dataset values built by `SpawriousBenchmark.__init__`:
`ImageFolder` (root path and its `(file path, class index)` samples),
`Subset` (a parent dataset and kept indices) and `ConcatDataset`. -/
inductive PyDataset where
  | imageFolder (root : String) (samples : List (String × Nat))
  | subset (parent : PyDataset) (indices : List Nat)
  | concat (ds : List PyDataset)

/-- `len()` of a torch dataset: an `ImageFolder` has one item per sample, a
`Subset` one per kept index, a `ConcatDataset` the sum of its parts. -/
def pyLen : PyDataset → Nat
  | .imageFolder _ samples => samples.length
  | .subset _ idx => idx.length
  | .concat ds => (ds.attach.map (fun d => pyLen d.1)).sum
  decreasing_by
    have := List.sizeOf_lt_of_mem d.2
    simp only [PyDataset.concat.sizeOf_spec]
    omega

/-- What `ImageFolder(root=path)` finds at a folder path: its samples
(`data.imgs`, aliased as `data.samples`) in storage order, and the
`class_to_idx` assignment derived from the class subdirectories. -/
structure FolderData where
  samples : List (String × Nat)
  cIdx : String → Nat

/-- Abstract filesystem/torchvision environment: folder path to folder data. -/
structure Env where
  folders : String → FolderData

/-- Path resolution of `__init__`:
`os.path.join(root_dir, f"{0}/{location}/")`, replaced by
`os.path.join(root_dir, f"{ind}/{location}/")` when `self.type1`. -/
def resolvePath (type1 : Bool) (rootDir : String) (ind : Nat) (location : String) : String :=
  pathJoin rootDir ((if type1 then toString ind else "0") ++ "/" ++ location ++ "/")

/-- The per-class cap scan of `__init__` (training side), with the running
`count_limit` as an extra argument.  For each enumerated item: if its label is
the scanned class, its index is appended and the counter incremented; then the
loop breaks as soon as the counter is at least `limit` (the break test runs
also when the item did not match). -/
def scanKeepGo (c : Nat) (limit : Int) : List (Nat × Nat) → Int → List Nat
  | [], _ => []
  | (i, l) :: rest, count =>
    if l = c then
      if count + 1 ≥ limit then [i]
      else i :: scanKeepGo c limit rest (count + 1)
    else
      if count ≥ limit then []
      else scanKeepGo c limit rest count

/-- Indices kept for one class by the cap scan, over the labels of the items
of an image folder in storage order. -/
def scanKeep (labels : List Nat) (c : Nat) (limit : Int) : List Nat :=
  scanKeepGo c limit labels.enum 0

/-- The indices of the items whose label is `c`, in storage order. -/
def matchIndices (labels : List Nat) (c : Nat) : List Nat :=
  (labels.enum.filter (fun p => p.2 == c)).map (fun p => p.1)

/-- `to_keep_idx` of the training side: the concatenation of the per-class cap
scans, one for each class index of the group's key. -/
def toKeep (labels : List Nat) (classesIdx : List Nat) (limit : Int) : List Nat :=
  classesIdx.flatMap (fun c => scanKeep labels c limit)

/-- Training side of `__init__` for dict-shaped `train_combinations`: for each
class group (in mapping order) and each `(location, limit)` placement (in list
order, enumerated for the type-1 path layout), open the image folder and keep
at most `limit` items per class of the group. -/
def buildTrainSubsets (env : Env) (type1 : Bool) (rootDir : String)
    (combs : List (List String × List (String × Int))) : List (List PyDataset) :=
  combs.map (fun cg =>
    cg.2.enum.map (fun p =>
      let path := resolvePath type1 rootDir p.1 p.2.1
      let data := env.folders path
      let classesIdx := cg.1.map data.cIdx
      PyDataset.subset (PyDataset.imageFolder path data.samples)
        (toKeep (data.samples.map Prod.snd) classesIdx p.2.2)))

/-- Testing side of `__init__` for dict-shaped `test_combinations`: same path
resolution, but keep every item whose label is in the group's class set
(`[i for i in range(len(data)) if data.imgs[i][1] in classes_idx]`). -/
def buildTestSubsets (env : Env) (type1 : Bool) (rootDir : String)
    (combs : List (List String × List String)) : List (List PyDataset) :=
  combs.map (fun cg =>
    cg.2.enum.map (fun p =>
      let path := resolvePath type1 rootDir p.1 p.2
      let data := env.folders path
      let classesIdx := cg.1.map data.cIdx
      PyDataset.subset (PyDataset.imageFolder path data.samples)
        ((List.range data.samples.length).filter
          (fun i => classesIdx.contains (data.samples.getD i ("", 0)).2))))

/-- Sequencing of a Python loop that can raise: evaluate `f` on each element,
returning `none` as soon as one application fails. -/
def optionMapM {α β : Type} (f : α → Option β) : List α → Option (List β)
  | [] => some []
  | a :: l =>
    match f a with
    | none => none
    | some b => (optionMapM f l).map (fun bs => b :: bs)

/-- The joint-dataset assembly of `__init__`:
`for group in range(len(for_each_class_group[0])): ConcatDataset([for_each_class_group[k][group] for k in range(...)])`.
`none` models the `IndexError` raised when the iterated indices do not exist
(in particular when the mapping is empty). -/
def buildJoint (forEach : List (List PyDataset)) : Option (List PyDataset) :=
  match forEach with
  | [] => none
  | g0 :: rest =>
    optionMapM
      (fun g => ((optionMapM (fun gk => gk.get? g) (g0 :: rest)).map PyDataset.concat))
      (List.range g0.length)

/-- The full `self.datasets` assembled by `__init__` for dict-shaped train and
test combinations: the concatenated test groups first, then the joint training
datasets in group-index order. -/
def benchmarkDatasets (env : Env) (type1 : Bool) (rootDir : String)
    (trainCombs : List (List String × List (String × Int)))
    (testCombs : List (List String × List String)) : Option (List PyDataset) :=
  match buildJoint (buildTrainSubsets env type1 rootDir trainCombs),
        buildJoint (buildTestSubsets env type1 rootDir testCombs) with
  | some trainList, some testList => some (PyDataset.concat testList :: trainList)
  | _, _ => none

/-- `SpawriousBenchmark.build_type1_combination(group, test, filler)`.
`counts = [int(0.97 * total), int(0.87 * total)]` truncates the products
toward zero; the products are positive, so this is the floor.  The IEEE-754
doubles `0.97 * 3168 = 3072.9599…` and `0.87 * 3168 = 2756.1599…` truncate to
the same integers as the exact rationals used here (3072 and 2756). -/
def buildType1Combination (group test : List String) (filler : String) :
    List (List String × List (String × Int)) × List (List String × List String) :=
  let total : Int := 3168
  let count0 : Int := ⌊(0.97 : ℚ) * 3168⌋
  let count1 : Int := ⌊(0.87 : ℚ) * 3168⌋
  ( [ (["bulldog"], [(group.getD 0 "", count0), (group.getD 0 "", count1)]),
      (["dachshund"], [(group.getD 1 "", count0), (group.getD 1 "", count1)]),
      (["labrador"], [(group.getD 2 "", count0), (group.getD 2 "", count1)]),
      (["corgi"], [(group.getD 3 "", count0), (group.getD 3 "", count1)]),
      (["bulldog", "dachshund", "labrador", "corgi"],
        [(filler, total - count0), (filler, total - count1)]) ],
    [ (["bulldog"], [test.getD 0 "", test.getD 0 ""]),
      (["dachshund"], [test.getD 1 "", test.getD 1 ""]),
      (["labrador"], [test.getD 2 "", test.getD 2 ""]),
      (["corgi"], [test.getD 3 "", test.getD 3 ""]) ] )

/-! ### `prepend_path` -/

/-- Rewriting of one sample entry by `prepend_path`:
`(os.path.join(to_prepend, sample_path.replace("./data/", "")), label)`. -/
def sampleMap (pre : String) (p : String × Nat) : String × Nat :=
  (pathJoin pre (pyReplace p.1 "./data/" ""), p.2)

/-- Rewriting of one `Subset` (`two` in the source): its `.dataset` must be an
`ImageFolder`, whose root and sample paths get rewritten in place; any other
shape raises (`none`). -/
def rewriteSub (pre : String) : PyDataset → Option PyDataset
  | .subset (.imageFolder root samples) idx =>
    some (.subset
      (.imageFolder (pathJoin pre (pyReplace root "./data/" ""))
        (samples.map (sampleMap pre)))
      idx)
  | _ => none

/-- Rewriting of one concatenated group (`one` in the source): iterate the
rewrite over `one.datasets`. -/
def rewriteGroup (pre : String) : PyDataset → Option PyDataset
  | .concat ds => (optionMapM (rewriteSub pre) ds).map PyDataset.concat
  | _ => none

/-- `SpawriousBenchmark.prepend_path(to_prepend)`: iterate over
`self.datasets[0].datasets + self.datasets[1:]` and rewrite every underlying
`ImageFolder` root and sample path. -/
def prependPath (pre : String) : List PyDataset → Option (List PyDataset)
  | .concat testGroups :: rest =>
    match optionMapM (rewriteGroup pre) testGroups,
          optionMapM (rewriteGroup pre) rest with
    | some tg, some r => some (.concat tg :: r)
    | _, _ => none
  | _ => none

/-! ### Entry-point name validation -/

/-- The allowed-name set asserted by `download_spawrious_dataset`. -/
def downloadAllowedNames : List String :=
  ["o2o_easy", "o2o_medium", "o2o_hard", "m2m_easy", "m2m_medium", "m2m_hard",
   "m2m", "entire_dataset"]

/-- `assert dataset_name.lower() in set([...])` of `download_spawrious_dataset`. -/
def downloadAccepted (name : String) : Bool :=
  decide (pyLower name ∈ downloadAllowedNames)

/-- The `filename_map` of `get_torch_dataset`, looked up with `.get` on the
lowercased name. -/
def filenameMap (l : String) : Option String :=
  if l = "o2o_easy" then some "sc11.pth"
  else if l = "o2o_medium" then some "sc12.pth"
  else if l = "o2o_hard" then some "sc13.pth"
  else if l = "m2m_easy" then some "sc22.pth"
  else if l = "m2m_medium" then some "sc23.pth"
  else if l = "m2m_hard" then some "sc21.pth"
  else none

/-- How `get_torch_dataset(name, root)` classifies a dataset name:
`download_spawrious_dataset`'s assertion fails first for names outside the
allowed set; otherwise an out-of-map name raises
`ValueError(f"Invalid dataset type: ...")`; otherwise loading proceeds with
the mapped snapshot filename. -/
inductive LoadOutcome where
  | assertionFailure
  | valueErr
  | proceeds (filename : String)
deriving DecidableEq

/-- Name validation performed by `get_torch_dataset` (which first calls
`download_spawrious_dataset`, whose assertion precedes the map lookup). -/
def getTorchDatasetValidation (name : String) : LoadOutcome :=
  if downloadAccepted name then
    match filenameMap (pyLower name) with
    | some f => .proceeds f
    | none => .valueErr
  else .assertionFailure

/-! ### Relations describing the `prepend_path` rewrite -/

/-- A one-folder environment used to instantiate the universally quantified
theorems at a concrete input: every path lists one image of class index 0. -/
def env0 : Env :=
  { folders := fun _ => { samples := [("./data/0/loc/x/a.png", 0)], cIdx := fun _ => 0 } }

/-- A one-group, one-placement training mapping. -/
def demoTrainCombs : List (List String × List (String × Int)) := [(["x"], [("loc", 1)])]

/-- A one-group, one-placement testing mapping. -/
def demoTestCombs : List (List String × List String) := [(["x"], ["loc"])]

/-- A training mapping with two distinct class-group keys (so it is
representable as a Python dict) whose placement lists have unequal lengths
(1 and 2). -/
def cexTrainCombs : List (List String × List (String × Int)) :=
  [(["x"], [("l1", 1)]), (["y"], [("l1", 1), ("l2", 1)])]

/-- A testing mapping with two distinct class-group keys (so it is
representable as a Python dict) whose placement lists have unequal lengths:
the first class-group's list, over whose length the assembly iterates, is
the strictly shortest one. -/
def cexTestCombs : List (List String × List String) :=
  [(["x"], ["l1"]), (["y"], ["l1", "l2"])]

/-- A dataset of the shape `Subset(ImageFolder(...), ...)` — the shape
`prepend_path` requires of every `two` it visits. -/
def IsSubShape (d : PyDataset) : Prop :=
  ∃ root samples idx, d = PyDataset.subset (PyDataset.imageFolder root samples) idx

/-- A `ConcatDataset` of `Subset`s of `ImageFolder`s — the shape of every
joint dataset the constructor assembles. -/
def IsGroupShape (d : PyDataset) : Prop :=
  ∃ ds, d = PyDataset.concat ds ∧ ∀ x ∈ ds, IsSubShape x

/-- The second dataset is the first with its `ImageFolder` root and every
sample path rewritten to `os.path.join(pre, old.replace("./data/", ""))`,
every sample's class label kept, and the kept indices unchanged. -/
def subRewritten (pre : String) : PyDataset → PyDataset → Prop
  | .subset (.imageFolder root samples) idx,
    .subset (.imageFolder root2 samples2) idx2 =>
    root2 = pathJoin pre (pyReplace root "./data/" "")
    ∧ samples2 = samples.map (sampleMap pre)
    ∧ idx2 = idx
  | _, _ => False

/-- `subRewritten` lifted over one concatenated group. -/
def groupRewritten (pre : String) : PyDataset → PyDataset → Prop
  | .concat ds, .concat ds2 => List.Forall₂ (subRewritten pre) ds ds2
  | _, _ => False

/-- `groupRewritten` lifted over the whole assembled record (the flat test
concatenation first, then the training groups). -/
def recordRewritten (pre : String) : List PyDataset → List PyDataset → Prop
  | .concat tg :: rest, .concat tg2 :: rest2 =>
    List.Forall₂ (groupRewritten pre) tg tg2
    ∧ List.Forall₂ (groupRewritten pre) rest rest2
  | _, _ => False

/-- The `Subset` value the demo environment and mappings below produce. -/
def demoSubset : PyDataset :=
  PyDataset.subset
    (PyDataset.imageFolder "root/0/loc/" [("./data/0/loc/x/a.png", 0)]) [0]

/-- The record assembled from the demo environment and mappings below. -/
def demoRecord : List PyDataset :=
  [PyDataset.concat [PyDataset.concat [demoSubset]], PyDataset.concat [demoSubset]]

/-! ### Lemmas about manifest lines -/

theorem linesKeep_eq_single {n : List Char} (hne : n ≠ []) (hnl : '\n' ∉ n) :
    linesKeep n = [n] := by
  induction n with
  | nil => exact absurd rfl hne
  | cons c rest ih =>
    have hc : ¬ (c = '\n') := fun h => hnl (h ▸ List.mem_cons_self c rest)
    by_cases hr : rest = []
    · subst hr; simp [linesKeep, hc]
    · have hrec := ih hr (fun h => hnl (List.mem_cons_of_mem c h))
      simp [linesKeep, hc, hrec]

theorem linesKeep_first_of_nl {s : List Char} (h : '\n' ∈ s) :
    ∃ l ls, linesKeep s = l :: ls ∧ '\n' ∈ l := by
  induction s with
  | nil => cases h
  | cons c rest ih =>
    by_cases hc : c = '\n'
    · subst hc
      exact ⟨['\n'], linesKeep rest, by simp [linesKeep], by simp⟩
    · have hr : '\n' ∈ rest := by
        cases List.mem_cons.mp h with
        | inl hh => exact absurd hh.symm hc
        | inr hh => exact hh
      obtain ⟨l, ls, hl, hnl⟩ := ih hr
      exact ⟨c :: l, ls, by simp [linesKeep, hc, hl], List.mem_cons_of_mem c hnl⟩

theorem mem_linesKeep_append (c : List Char) {n : List Char} (hne : n ≠ [])
    (hnl : '\n' ∉ n) : n ∈ linesKeep (c ++ '\n' :: n) := by
  induction c with
  | nil => simp [linesKeep, linesKeep_eq_single hne hnl]
  | cons ch c2 ih =>
    by_cases hch : ch = '\n'
    · subst hch
      simpa [linesKeep] using Or.inr ih
    · have hmem : '\n' ∈ c2 ++ '\n' :: n := by simp
      obtain ⟨l, ls, hl, hlnl⟩ := linesKeep_first_of_nl hmem
      have ihm := ih
      rw [hl] at ihm
      have hred : linesKeep ((ch :: c2) ++ '\n' :: n) = (ch :: l) :: ls := by
        simp [linesKeep, hch, hl]
      rw [hred]
      cases List.mem_cons.mp ihm with
      | inl hh => exact absurd (hh ▸ hlnl) hnl
      | inr hh => exact List.mem_cons_of_mem _ hh

theorem mem_pyReadlines_append (c : String) {n : String} (hne : n.data ≠ [])
    (hnl : '\n' ∉ n.data) : n ∈ pyReadlines (c ++ "\n" ++ n) := by
  have hdata : (c ++ "\n" ++ n).data = c.data ++ '\n' :: n.data := by
    simp [String.data_append]
  unfold pyReadlines
  rw [hdata]
  exact List.mem_map_of_mem _ (mem_linesKeep_append c.data hne hnl)

theorem isMarked_append (c : String) {n : String} (hne : n.data ≠ [])
    (hnl : '\n' ∉ n.data) : isMarkedExtracted n (c ++ "\n" ++ n) = true := by
  unfold isMarkedExtracted
  simp [mem_pyReadlines_append c hne hnl]

theorem urlLookup_name_props {n u : String} (h : urlLookup n = some u) :
    n.data ≠ [] ∧ '\n' ∉ n.data := by
  unfold urlLookup at h
  split_ifs at h with h1 h2 h3 h4 h5
  · subst h1; exact ⟨by decide, by decide⟩
  · subst h2; exact ⟨by decide, by decide⟩
  · subst h3; exact ⟨by decide, by decide⟩
  · subst h4; exact ⟨by decide, by decide⟩
  · subst h5; exact ⟨by decide, by decide⟩

theorem not_mem_filter_self (l : List String) (x : String) :
    x ∉ l.filter (fun t => t != x) := by
  intro h
  have hx := (List.mem_filter.mp h).2
  simp at hx

/-- A call on a state whose manifest is present and marked (in the raw-line
sense the code uses) is a no-op, whether or not the tar file is present. -/
theorem pyDownload_noop_of_marked (nameRaw url : String) (s0 : DLState)
    (hurl : urlLookup (normalizeName nameRaw) = some url)
    (hcase : ∀ content, s0.manifest = some content →
      isMarkedExtracted (normalizeName nameRaw) content = true)
    (hm : s0.manifest ≠ none) :
    pyDownload true true nameRaw s0 = Except.ok s0 := by
  obtain ⟨content, hc⟩ := Option.ne_none_iff_exists'.mp hm
  have hmk := hcase content hc
  by_cases ht : tarFileName (normalizeName nameRaw) ∈ s0.tars
  · simp [pyDownload, hurl, ht, hc, hmk]
  · simp [pyDownload, hurl, ht, hc, hmk]

/-- C4: for all `(name, root)`, if a first call to
`_download_dataset_if_not_available` (with the default
`remove_tar_after_extracting=True`) succeeds and leaves state `s1`, then a
second call in succession returns with the state unchanged (`Except.ok s1`).
Since `fetched` and `extracted` are cumulative logs, the unchanged state means
the second call performs no fetch and no re-extraction, and the manifest after
the two calls is exactly the manifest a single successful call produces. -/
theorem download_idempotent (nameRaw : String) (s s1 : DLState)
    (h : pyDownload true true nameRaw s = Except.ok s1) :
    pyDownload true true nameRaw s1 = Except.ok s1 := by
  cases hurl : urlLookup (normalizeName nameRaw) with
  | none => simp [pyDownload, hurl] at h
  | some url =>
    obtain ⟨hnne, hnnl⟩ := urlLookup_name_props hurl
    have hmarked : ∀ X : DLState,
        appendManifest (normalizeName nameRaw)
          (afterExtract true (tarFileName (normalizeName nameRaw)) X) = s1 →
        pyDownload true true nameRaw s1 = Except.ok s1 := by
      intro X hX
      apply pyDownload_noop_of_marked nameRaw url _ hurl
      · intro content hc
        rw [← hX] at hc
        simp only [appendManifest, afterExtract, Option.some.injEq] at hc
        rw [← hc]
        exact isMarked_append _ hnne hnnl
      · rw [← hX]
        simp [appendManifest]
    simp only [pyDownload, hurl] at h
    by_cases ht : tarFileName (normalizeName nameRaw) ∈ s.tars
    · rw [if_pos ht] at h
      cases hm : s.manifest with
      | some content =>
        simp only [hm] at h
        cases hmk : isMarkedExtracted (normalizeName nameRaw) content with
        | true =>
          rw [if_pos hmk] at h
          injection h with h1
          subst h1
          exact pyDownload_noop_of_marked nameRaw url s hurl
            (fun c hc => by rw [hm] at hc; injection hc with h2; exact h2 ▸ hmk)
            (by rw [hm]; simp)
        | false =>
          rw [if_neg (by simp [hmk])] at h
          simp only [extractAndMark, if_pos rfl] at h
          injection h with h1
          exact hmarked _ h1
      | none =>
        simp only [hm, extractAndMark, if_pos rfl] at h
        injection h with h1
        exact hmarked _ h1
    · rw [if_neg ht] at h
      cases hm : s.manifest with
      | some content =>
        simp only [hm] at h
        cases hmk : isMarkedExtracted (normalizeName nameRaw) content with
        | true =>
          simp only [hmk, if_pos rfl] at h
          injection h with h1
          subst h1
          exact pyDownload_noop_of_marked nameRaw url s hurl
            (fun c hc => by rw [hm] at hc; injection hc with h2; exact h2 ▸ hmk)
            (by rw [hm]; simp)
        | false =>
          simp only [hmk, Bool.false_eq_true, if_false, extractAndMark, if_pos rfl] at h
          injection h with h1
          exact hmarked _ h1
      | none =>
        simp only [hm, Bool.false_eq_true, if_false, extractAndMark, if_pos rfl] at h
        injection h with h1
        exact hmarked _ h1

/-- Witness for C4: a concrete first call from a fresh root, followed by a
second call that is a no-op. -/
theorem download_idempotent_witness :
    pyDownload true true "o2o_easy"
      { tars := [], manifest := some "\no2o_easy",
        writtenTars := ["spawrious__o2o_easy.tar.gz"],
        fetched := ["https://www.dropbox.com/s/bonf1elisg2ohiq/spawrious__o2o_easy.tar.gz?dl=1"],
        extracted := ["spawrious__o2o_easy.tar.gz"] }
      = Except.ok
      { tars := [], manifest := some "\no2o_easy",
        writtenTars := ["spawrious__o2o_easy.tar.gz"],
        fetched := ["https://www.dropbox.com/s/bonf1elisg2ohiq/spawrious__o2o_easy.tar.gz?dl=1"],
        extracted := ["spawrious__o2o_easy.tar.gz"] } :=
  download_idempotent "o2o_easy"
    { tars := [], manifest := none, writtenTars := [], fetched := [], extracted := [] }
    _ (by rfl)

/-- C7: extraction failures leave the manifest untouched, and a manifest
append happens only in a run whose extraction completed successfully.
First conjunct: when extraction raises (`extractOk = false`), the propagated
exception carries a state with the original manifest, so a later run will
attempt extraction again.  Second conjunct: any successful run that changed
the manifest logged exactly one new successful extraction of this dataset's
tar file. -/
theorem manifest_untouched_on_failure (rm : Bool) (nameRaw : String) (s : DLState) :
    (∀ e, pyDownload false rm nameRaw s = Except.error e → e.manifest = s.manifest)
    ∧ (∀ extractOk s2, pyDownload extractOk rm nameRaw s = Except.ok s2 →
        s2.manifest ≠ s.manifest →
        s2.extracted = s.extracted ++ [tarFileName (normalizeName nameRaw)]) := by
  constructor
  · intro e he
    cases hurl : urlLookup (normalizeName nameRaw) with
    | none =>
      simp only [pyDownload, hurl] at he
      injection he with h1
      rw [h1]
    | some url =>
      simp only [pyDownload, hurl] at he
      by_cases ht : tarFileName (normalizeName nameRaw) ∈ s.tars
      · rw [if_pos ht] at he
        cases hm : s.manifest with
        | some content =>
          simp only [hm] at he
          cases hmk : isMarkedExtracted (normalizeName nameRaw) content with
          | true => rw [if_pos hmk] at he; cases he
          | false =>
            rw [if_neg (by simp [hmk])] at he
            simp only [extractAndMark, Bool.false_eq_true, if_false] at he
            injection he with h1
            rw [← h1]
            exact hm
        | none =>
          simp only [hm, extractAndMark, Bool.false_eq_true, if_false] at he
          injection he with h1
          rw [← h1]
          exact hm
      · rw [if_neg ht] at he
        cases hm : s.manifest with
        | some content =>
          simp only [hm] at he
          cases hmk : isMarkedExtracted (normalizeName nameRaw) content with
          | true => simp only [hmk, if_pos rfl] at he; cases he
          | false =>
            simp only [hmk, Bool.false_eq_true, if_false, extractAndMark] at he
            injection he with h1
            rw [← h1]
        | none =>
          simp only [hm, Bool.false_eq_true, if_false, extractAndMark] at he
          injection he with h1
          rw [← h1]
  · intro extractOk s2 h2 hne
    cases hurl : urlLookup (normalizeName nameRaw) with
    | none => simp [pyDownload, hurl] at h2
    | some url =>
      simp only [pyDownload, hurl] at h2
      cases extractOk with
      | false =>
        exfalso
        by_cases ht : tarFileName (normalizeName nameRaw) ∈ s.tars
        · rw [if_pos ht] at h2
          cases hm : s.manifest with
          | some content =>
            simp only [hm] at h2
            cases hmk : isMarkedExtracted (normalizeName nameRaw) content with
            | true =>
              rw [if_pos hmk] at h2
              injection h2 with h1
              exact hne (h1 ▸ rfl)
            | false =>
              rw [if_neg (by simp [hmk])] at h2
              simp [extractAndMark] at h2
          | none => simp [hm, extractAndMark] at h2
        · rw [if_neg ht] at h2
          cases hm : s.manifest with
          | some content =>
            simp only [hm] at h2
            cases hmk : isMarkedExtracted (normalizeName nameRaw) content with
            | true =>
              simp only [hmk, if_pos rfl] at h2
              injection h2 with h1
              exact hne (h1 ▸ rfl)
            | false =>
              simp only [hmk, Bool.false_eq_true, if_false] at h2
              simp [extractAndMark] at h2
          | none => simp [hm, extractAndMark] at h2
      | true =>
        by_cases ht : tarFileName (normalizeName nameRaw) ∈ s.tars
        · rw [if_pos ht] at h2
          cases hm : s.manifest with
          | some content =>
            simp only [hm] at h2
            cases hmk : isMarkedExtracted (normalizeName nameRaw) content with
            | true =>
              rw [if_pos hmk] at h2
              injection h2 with h1
              exact absurd (h1 ▸ rfl) hne
            | false =>
              rw [if_neg (by simp [hmk])] at h2
              simp only [extractAndMark, if_pos rfl] at h2
              injection h2 with h1
              rw [← h1]
              simp [appendManifest, afterExtract]
          | none =>
            simp only [hm, extractAndMark, if_pos rfl] at h2
            injection h2 with h1
            rw [← h1]
            simp [appendManifest, afterExtract]
        · rw [if_neg ht] at h2
          cases hm : s.manifest with
          | some content =>
            simp only [hm] at h2
            cases hmk : isMarkedExtracted (normalizeName nameRaw) content with
            | true =>
              simp only [hmk, if_pos rfl] at h2
              injection h2 with h1
              exact absurd (h1 ▸ rfl) hne
            | false =>
              simp only [hmk, Bool.false_eq_true, if_false, extractAndMark, if_pos rfl] at h2
              injection h2 with h1
              rw [← h1]
              simp [appendManifest, afterExtract]
          | none =>
            simp only [hm, Bool.false_eq_true, if_false, extractAndMark, if_pos rfl] at h2
            injection h2 with h1
            rw [← h1]
            simp [appendManifest, afterExtract]

/-- Witness for C7: a concrete run from a fresh root whose extraction raises
leaves the manifest absent, exactly as before the run. -/
theorem manifest_untouched_witness :
    DLState.manifest
      { tars := ["spawrious__m2m.tar.gz"], manifest := none,
        writtenTars := ["spawrious__m2m.tar.gz"],
        fetched := ["https://www.dropbox.com/s/spwszi0rxbf53f8/spawrious__m2m.tar.gz?dl=1"],
        extracted := [] }
    = DLState.manifest
      { tars := [], manifest := none, writtenTars := [], fetched := [], extracted := [] } :=
  (manifest_untouched_on_failure true "m2m"
    { tars := [], manifest := none, writtenTars := [], fetched := [], extracted := [] }).1
    _ (by rfl)

/-- C8: any dataset name whose lowercased first underscore-component is
`m2m` resolves to the single `m2m` archive: from a fresh root, the call
fetches the `m2m` URL, writes `spawrious__m2m.tar.gz`, extracts it, and
records `m2m` in the manifest. -/
theorem m2m_prefix_download (nameRaw : String) (s : DLState)
    (hn : firstComponent (pyLower nameRaw) = "m2m")
    (ht : s.tars = []) (hm : s.manifest = none) :
    pyDownload true true nameRaw s = Except.ok
      { tars := [],
        manifest := some "\nm2m",
        writtenTars := s.writtenTars ++ ["spawrious__m2m.tar.gz"],
        fetched := s.fetched ++
          ["https://www.dropbox.com/s/spwszi0rxbf53f8/spawrious__m2m.tar.gz?dl=1"],
        extracted := s.extracted ++ ["spawrious__m2m.tar.gz"] } := by
  have hnorm : normalizeName nameRaw = "m2m" := by simp [normalizeName, hn]
  simp only [pyDownload, hnorm]
  rw [show urlLookup "m2m" =
      some "https://www.dropbox.com/s/spwszi0rxbf53f8/spawrious__m2m.tar.gz?dl=1" from rfl]
  rw [ht, hm]
  simp only [List.not_mem_nil, if_false, extractAndMark, if_pos rfl]
  rfl

/-- Witness for C8: the mixed-case name `M2M` from a fresh root. -/
theorem m2m_prefix_download_witness :
    pyDownload true true "M2M"
      { tars := [], manifest := none, writtenTars := [], fetched := [], extracted := [] }
    = Except.ok
      { tars := [],
        manifest := some "\nm2m",
        writtenTars := ["spawrious__m2m.tar.gz"],
        fetched := ["https://www.dropbox.com/s/spwszi0rxbf53f8/spawrious__m2m.tar.gz?dl=1"],
        extracted := ["spawrious__m2m.tar.gz"] } :=
  m2m_prefix_download "M2M"
    { tars := [], manifest := none, writtenTars := [], fetched := [], extracted := [] }
    (by decide) rfl rfl

/-- C1 (amended): with a manifest present, the download operation is a no-op
(treats the dataset as already extracted) iff the normalized name or
`entire_dataset` equals one of the *raw* elements of `readlines()` — i.e. a
line **including its trailing newline when one is present**.  A manifest line
that equals the name but is followed by a newline does not match. -/
theorem extraction_check_raw_lines (rm : Bool) (nameRaw : String) (s : DLState)
    (content : String) (hm : s.manifest = some content)
    (hv : (urlLookup (normalizeName nameRaw)).isSome = true) :
    pyDownload true rm nameRaw s = Except.ok s ↔
      isMarkedExtracted (normalizeName nameRaw) content = true := by
  obtain ⟨url, hurl⟩ := Option.isSome_iff_exists.mp hv
  constructor
  · intro h
    cases hmk : isMarkedExtracted (normalizeName nameRaw) content with
    | true => rfl
    | false =>
      exfalso
      simp only [pyDownload, hurl] at h
      by_cases ht : tarFileName (normalizeName nameRaw) ∈ s.tars
      · rw [if_pos ht, hm] at h
        simp only [hmk, Bool.false_eq_true, if_false, extractAndMark] at h
        cases rm <;> · injection h with h1
                       have := congrArg DLState.extracted h1
                       simp [appendManifest, afterExtract] at this
      · rw [if_neg ht, hm] at h
        simp only [hmk, Bool.false_eq_true, if_false, extractAndMark] at h
        injection h with h1
        have := congrArg DLState.fetched h1
        simp [appendManifest, afterExtract] at this
  · intro hmk
    by_cases ht : tarFileName (normalizeName nameRaw) ∈ s.tars
    · simp [pyDownload, hurl, ht, hm, hmk]
    · simp [pyDownload, hurl, ht, hm, hmk]

/-- Witness for C1's amended theorem: a manifest whose single entry is the
most recently appended `m2m` is recognized, and the call is a no-op. -/
theorem extraction_check_witness :
    pyDownload true true "m2m"
      { tars := [], manifest := some "\nm2m", writtenTars := [], fetched := [],
        extracted := [] }
    = Except.ok
      { tars := [], manifest := some "\nm2m", writtenTars := [], fetched := [],
        extracted := [] } :=
  (extraction_check_raw_lines true "m2m"
    { tars := [], manifest := some "\nm2m", writtenTars := [], fetched := [],
      extracted := [] }
    "\nm2m" rfl (by decide)).mpr (by decide)

/-- Counterexample for C1 as stated: in the manifest content
`"\no2o_easy\nm2m"` — exactly what two successive appends of `o2o_easy` and
`m2m` produce — a manifest line equals `o2o_easy`, so the claim says the
dataset is treated as already extracted; but `readlines()` yields the raw
element `"o2o_easy\n"`, the membership test fails, and with the tar present
the operation re-extracts and re-appends instead of being a no-op. -/
theorem extraction_check_counterexample :
    specLineExtracted "o2o_easy" "\no2o_easy\nm2m" = true
    ∧ isMarkedExtracted "o2o_easy" "\no2o_easy\nm2m" = false
    ∧ pyDownload true true "o2o_easy"
        { tars := ["spawrious__o2o_easy.tar.gz"], manifest := some "\no2o_easy\nm2m",
          writtenTars := [], fetched := [], extracted := [] }
      = Except.ok
        { tars := [], manifest := some "\no2o_easy\nm2m\no2o_easy",
          writtenTars := [], fetched := [],
          extracted := ["spawrious__o2o_easy.tar.gz"] } :=
  ⟨by decide, by decide, by rfl⟩

/-! ### Lemmas about the per-class cap scan -/

theorem scanKeepGo_eq_take (c : Nat) (cap : Int) :
    ∀ (l : List (Nat × Nat)) (count : Int), count < cap →
    scanKeepGo c cap l count =
      ((l.filter (fun p => p.2 == c)).map (fun p => p.1)).take (cap - count).toNat := by
  intro l
  induction l with
  | nil => intro count hc; simp [scanKeepGo]
  | cons p rest ih =>
    intro count hc
    obtain ⟨i, x⟩ := p
    by_cases hx : x = c
    · subst hx
      simp only [scanKeepGo, if_pos rfl]
      by_cases hbreak : count + 1 ≥ cap
      · rw [if_pos hbreak]
        have h1 : (cap - count).toNat = 1 := by omega
        simp [h1]
      · rw [if_neg hbreak]
        rw [ih (count + 1) (by omega)]
        have h2 : (cap - count).toNat = (cap - (count + 1)).toNat + 1 := by omega
        simp [h2]
    · simp only [scanKeepGo]
      rw [if_neg hx, if_neg (by omega)]
      rw [ih count hc]
      have hxb : ((i, x).2 == c) = false := by simp [hx]
      simp [List.filter_cons, hxb]

theorem scanKeep_eq_take (labels : List Nat) (c : Nat) (cap : Int) (h : 1 ≤ cap) :
    scanKeep labels c cap = (matchIndices labels c).take cap.toNat := by
  unfold scanKeep matchIndices
  rw [scanKeepGo_eq_take c cap labels.enum 0 (by omega)]
  norm_num

theorem scanKeepGo_mem (c : Nat) (cap : Int) :
    ∀ (l : List (Nat × Nat)) (count : Int) (i : Nat),
    i ∈ scanKeepGo c cap l count → (i, c) ∈ l := by
  intro l
  induction l with
  | nil => intro count i hi; simp [scanKeepGo] at hi
  | cons p rest ih =>
    intro count i hi
    obtain ⟨j, x⟩ := p
    simp only [scanKeepGo] at hi
    by_cases hx : x = c
    · subst hx
      rw [if_pos rfl] at hi
      by_cases hbreak : count + 1 ≥ cap
      · rw [if_pos hbreak] at hi
        simp at hi
        subst hi
        exact List.mem_cons_self _ _
      · rw [if_neg hbreak] at hi
        cases List.mem_cons.mp hi with
        | inl hh => subst hh; exact List.mem_cons_self _ _
        | inr hh => exact List.mem_cons_of_mem _ (ih _ _ hh)
    · rw [if_neg hx] at hi
      by_cases hbreak : count ≥ cap
      · rw [if_pos hbreak] at hi; simp at hi
      · rw [if_neg hbreak] at hi
        exact List.mem_cons_of_mem _ (ih _ _ hi)

theorem toKeep_label_mem (labels : List Nat) (classesIdx : List Nat) (cap : Int)
    (i : Nat) (hi : i ∈ toKeep labels classesIdx cap) :
    ∃ c ∈ classesIdx, labels.get? i = some c := by
  unfold toKeep at hi
  obtain ⟨c, hc, hscan⟩ := List.mem_flatMap.mp hi
  refine ⟨c, hc, ?_⟩
  have henum : (i, c) ∈ labels.enum := scanKeepGo_mem c cap labels.enum 0 i hscan
  rw [List.get?_eq_getElem?]
  exact List.mk_mem_enum_iff_getElem?.mp henum

/-! ### Lemmas about joint-dataset assembly -/

theorem optionMapM_eq_map {α β : Type} (f : α → Option β) (g : α → β) :
    ∀ l : List α, (∀ a ∈ l, f a = some (g a)) → optionMapM f l = some (l.map g) := by
  intro l
  induction l with
  | nil => intro _; rfl
  | cons a l ih =>
    intro h
    simp only [optionMapM, h a (List.mem_cons_self a l)]
    rw [ih (fun b hb => h b (List.mem_cons_of_mem a hb))]
    rfl

theorem optionMapM_exists_forall₂ {α β : Type} (f : α → Option β) (R : α → β → Prop) :
    ∀ l : List α, (∀ a ∈ l, ∃ b, f a = some b ∧ R a b) →
    ∃ l2, optionMapM f l = some l2 ∧ List.Forall₂ R l l2 := by
  intro l
  induction l with
  | nil => intro _; exact ⟨[], rfl, List.Forall₂.nil⟩
  | cons a l ih =>
    intro h
    obtain ⟨b, hb, hR⟩ := h a (List.mem_cons_self a l)
    obtain ⟨l2, hl2, hF⟩ := ih (fun x hx => h x (List.mem_cons_of_mem a hx))
    exact ⟨b :: l2, by simp only [optionMapM, hb, hl2, Option.map_some'], List.Forall₂.cons hR hF⟩

theorem get?_of_lt {α : Type} (l : List α) (n : Nat) (d : α) (h : n < l.length) :
    l.get? n = some (l.getD n d) := by
  rw [List.getD_eq_getElem?_getD, List.get?_eq_getElem?]
  cases hx : l[n]? with
  | none => rw [List.getElem?_eq_none_iff] at hx; omega
  | some x => rfl

/-- Characterization of the joint-dataset assembly when all class groups have
placement lists of the same length `L`: there are exactly `L` joint datasets,
and the `g`-th is the concatenation, over class groups in mapping order, of
each group's placement at position `g`. -/
theorem buildJoint_eq (forEach : List (List PyDataset)) (L : Nat)
    (hne : forEach ≠ []) (hlen : ∀ gl ∈ forEach, gl.length = L) :
    buildJoint forEach =
      some ((List.range L).map (fun g =>
        PyDataset.concat (forEach.map (fun gl => gl.getD g (PyDataset.concat []))))) := by
  cases forEach with
  | nil => exact absurd rfl hne
  | cons g0 rest =>
    have h0 : g0.length = L := hlen g0 (List.mem_cons_self _ _)
    show optionMapM
        (fun g => Option.map PyDataset.concat (optionMapM (fun gk => gk.get? g) (g0 :: rest)))
        (List.range g0.length) = _
    rw [h0]
    apply optionMapM_eq_map
    intro g hg
    have hgL : g < L := List.mem_range.mp hg
    rw [optionMapM_eq_map (fun gk => gk.get? g)
      (fun gl => gl.getD g (PyDataset.concat [])) (g0 :: rest)
      (fun gk hk => get?_of_lt gk g _ (by rw [hlen gk hk]; exact hgL))]
    rfl

theorem buildTrainSubsets_lengths (env : Env) (type1 : Bool) (rootDir : String)
    (combs : List (List String × List (String × Int))) (L : Nat)
    (h : ∀ cg ∈ combs, cg.2.length = L) :
    ∀ gl ∈ buildTrainSubsets env type1 rootDir combs, gl.length = L := by
  intro gl hgl
  simp only [buildTrainSubsets, List.mem_map] at hgl
  obtain ⟨cg, hcg, rfl⟩ := hgl
  simp only [List.length_map, List.enum_length]
  exact h cg hcg

theorem buildTestSubsets_lengths (env : Env) (type1 : Bool) (rootDir : String)
    (combs : List (List String × List String)) (L : Nat)
    (h : ∀ cg ∈ combs, cg.2.length = L) :
    ∀ gl ∈ buildTestSubsets env type1 rootDir combs, gl.length = L := by
  intro gl hgl
  simp only [buildTestSubsets, List.mem_map] at hgl
  obtain ⟨cg, hcg, rfl⟩ := hgl
  simp only [List.length_map, List.enum_length]
  exact h cg hcg

/-- C5 (amended): for every nonempty dict-shaped train/test combination input
whose placement lists are index-aligned (same length per mapping), the
assembled record is the single flat test dataset — the concatenation across
all group indices of the per-group-index joint test collections — followed by
the joint training datasets in group-index order.  (As stated, over every
dict-shaped input, the claim fails: the assembly iterates only over the first
class-group's placement-list length, so when that list is strictly shortest a
record is still assembled whose flat test set omits the later groups' extra
group indices.) -/
theorem benchmark_record_shape (env : Env) (type1 : Bool) (root : String)
    (tr : List (List String × List (String × Int)))
    (te : List (List String × List String)) (Lt Ls : Nat)
    (htrne : tr ≠ []) (htene : te ≠ [])
    (htr : ∀ cg ∈ tr, cg.2.length = Lt) (hte : ∀ cg ∈ te, cg.2.length = Ls) :
    benchmarkDatasets env type1 root tr te =
      some (PyDataset.concat ((List.range Ls).map (fun g =>
          PyDataset.concat ((buildTestSubsets env type1 root te).map
            (fun gl => gl.getD g (PyDataset.concat [])))))
        :: (List.range Lt).map (fun g =>
          PyDataset.concat ((buildTrainSubsets env type1 root tr).map
            (fun gl => gl.getD g (PyDataset.concat []))))) := by
  have htrne2 : buildTrainSubsets env type1 root tr ≠ [] := by
    intro hh
    exact htrne (by simpa [buildTrainSubsets] using hh)
  have htene2 : buildTestSubsets env type1 root te ≠ [] := by
    intro hh
    exact htene (by simpa [buildTestSubsets] using hh)
  unfold benchmarkDatasets
  rw [buildJoint_eq _ Lt htrne2 (buildTrainSubsets_lengths env type1 root tr Lt htr),
    buildJoint_eq _ Ls htene2 (buildTestSubsets_lengths env type1 root te Ls hte)]

/-- Witness for C5 at a concrete environment and mapping. -/
theorem benchmark_record_shape_witness :
    benchmarkDatasets env0 false "root" demoTrainCombs demoTestCombs =
      some (PyDataset.concat ((List.range 1).map (fun g =>
          PyDataset.concat ((buildTestSubsets env0 false "root" demoTestCombs).map
            (fun gl => gl.getD g (PyDataset.concat [])))))
        :: (List.range 1).map (fun g =>
          PyDataset.concat ((buildTrainSubsets env0 false "root" demoTrainCombs).map
            (fun gl => gl.getD g (PyDataset.concat []))))) :=
  benchmark_record_shape env0 false "root" demoTrainCombs demoTestCombs 1 1
    (by decide) (by decide) (by decide) (by decide)

/-- Counterexample for C5 as stated (over every dict-shaped input): with the
dict-representable test mapping `{("x",): ["l1"], ("y",): ["l1", "l2"]}`,
whose first class-group's placement list is strictly shortest, a record IS
assembled (no error is raised), yet its first element concatenates only the
single group-index-0 joint test collection: the second class-group has a
placement at group index 1 — its `l2` subset is built with two kept items
available — but no group-index-1 joint test collection exists anywhere in the
record, so the first element is not the concatenation across all group
indices. -/
theorem benchmark_record_counterexample :
    benchmarkDatasets env0 false "r" demoTrainCombs cexTestCombs
      = some
        [PyDataset.concat [PyDataset.concat
          [PyDataset.subset
            (PyDataset.imageFolder "r/0/l1/" [("./data/0/loc/x/a.png", 0)]) [0],
           PyDataset.subset
            (PyDataset.imageFolder "r/0/l1/" [("./data/0/loc/x/a.png", 0)]) [0]]],
         PyDataset.concat
          [PyDataset.subset
            (PyDataset.imageFolder "r/0/loc/" [("./data/0/loc/x/a.png", 0)]) [0]]]
    ∧ ((buildTestSubsets env0 false "r" cexTestCombs).getD 1 []).length = 2 :=
  ⟨by rfl, by rfl⟩

/-- C6 (amended): when every class-group's placement list has the same length
`L`, there are exactly `L` joint training datasets and the `g`-th one is
exactly the concatenation of every class-group's position-`g` filtered
sub-collection, in mapping order — so each placement lands in the joint
dataset of its own group index and in no other.  (As stated, with unequal
lengths, the claim fails: the assembly only iterates over the first group's
list length.) -/
theorem group_alignment_amended (env : Env) (type1 : Bool) (root : String)
    (tr : List (List String × List (String × Int))) (L : Nat)
    (hne : tr ≠ []) (hlen : ∀ cg ∈ tr, cg.2.length = L) :
    buildJoint (buildTrainSubsets env type1 root tr) =
      some ((List.range L).map (fun g =>
        PyDataset.concat ((buildTrainSubsets env type1 root tr).map
          (fun gl => gl.getD g (PyDataset.concat []))))) :=
  buildJoint_eq _ L
    (fun hh => hne (by simpa [buildTrainSubsets] using hh))
    (buildTrainSubsets_lengths env type1 root tr L hlen)

/-- Witness for C6's amended theorem at a concrete mapping. -/
theorem group_alignment_witness :
    buildJoint (buildTrainSubsets env0 false "root" demoTrainCombs) =
      some ((List.range 1).map (fun g =>
        PyDataset.concat ((buildTrainSubsets env0 false "root" demoTrainCombs).map
          (fun gl => gl.getD g (PyDataset.concat []))))) :=
  group_alignment_amended env0 false "root" demoTrainCombs 1 (by decide) (by decide)

/-- Counterexample for C6 as stated ("whatever the lengths of the per-group
placement lists"): in the dict-representable training mapping
`{("x",): [("l1", 1)], ("y",): [("l1", 1), ("l2", 1)]}` — two distinct
class-group keys with placement lists of lengths 1 and 2 — the second
class-group produces two filtered sub-collections, but only one joint
training dataset is assembled (the loop ranges over the first group's list
length), so the position-1 placement is included in no joint dataset of
group index 1. -/
theorem group_alignment_counterexample :
    (buildJoint (buildTrainSubsets env0 false "r" cexTrainCombs)).map List.length = some 1
    ∧ ((buildTrainSubsets env0 false "r" cexTrainCombs).getD 1 []).length = 2 :=
  ⟨by rfl, by rfl⟩

/-- C3 (amended): for every cap of at least 1, the per-class cap scan keeps
exactly the first `cap` items of the class in storage order (a prefix of the
matching indices); and for every cap, every kept index carries a label of a
class inside the group — no item of an outside class is kept.  (As stated,
with cap 0 the claim fails: the break test runs only after the first item has
been examined, so a matching first item is kept despite the zero cap.) -/
theorem cap_scan_amended (labels : List Nat) (classesIdx : List Nat) (cap : Int) :
    (∀ c, 1 ≤ cap → scanKeep labels c cap = (matchIndices labels c).take cap.toNat)
    ∧ (∀ i ∈ toKeep labels classesIdx cap, ∃ c ∈ classesIdx, labels.get? i = some c) :=
  ⟨fun c h => scanKeep_eq_take labels c cap h,
   fun i hi => toKeep_label_mem labels classesIdx cap i hi⟩

/-- Witness for C3's amended theorem on a concrete collection. -/
theorem cap_scan_witness :
    scanKeep [5, 6, 5, 5] 5 2 = (matchIndices [5, 6, 5, 5] 5).take (2 : Int).toNat
    ∧ ∃ c ∈ [5], [5, 6, 5, 5].get? 0 = some c :=
  ⟨(cap_scan_amended [5, 6, 5, 5] [5] 2).1 5 (by decide),
   (cap_scan_amended [5, 6, 5, 5] [5] 2).2 0 (by decide)⟩

/-- Counterexample for C3 as stated ("for every cap ≥ 0 ... keeps at most cap
items"): with cap 0 and a collection whose first item belongs to the group,
the scan keeps that item — one item, which is more than the cap 0 allows. -/
theorem cap_scan_counterexample :
    toKeep [7] [7] 0 = [0] ∧ ¬ ((toKeep [7] [7] 0).length ≤ 0) := by decide

/-! ### The type-1 combination counts -/

theorem count097_eq : ⌊(0.97 : ℚ) * 3168⌋ = (3072 : Int) := by
  rw [Int.floor_eq_iff]
  norm_num

theorem count087_eq : ⌊(0.87 : ℚ) * 3168⌋ = (2756 : Int) := by
  rw [Int.floor_eq_iff]
  norm_num

theorem round097_eq : round ((0.97 : ℚ) * 3168) = (3073 : Int) := by
  rw [round_eq, Int.floor_eq_iff]
  norm_num

theorem scanKeep_length_le (labels : List Nat) (c : Nat) (cap : Int) (h : 1 ≤ cap) :
    (scanKeep labels c cap).length ≤ cap.toNat := by
  rw [scanKeep_eq_take labels c cap h]
  exact List.length_take_le _ _

theorem toKeep_singleton_length_le (labels : List Nat) (c : Nat) (cap : Int) (h : 1 ≤ cap) :
    (toKeep labels [c] cap).length ≤ cap.toNat := by
  unfold toKeep
  simpa using scanKeep_length_le labels c cap h

/-- C2 (amended): the two per-class training caps of every Type-1 combination
are `int(0.97×3168) = ⌊0.97×3168⌋ = 3072` and `int(0.87×3168) = ⌊0.87×3168⌋ =
2756` (truncation, not rounding), the filler caps are `3168 − 3072 = 96` and
`3168 − 2756 = 412`, and each of the four classes contributes at most
`3072 + 2756 = 5828` images from its two correlated-location placements
combined, regardless of how many images exist on disk. -/
theorem type1_counts_amended (group test : List String) (filler : String) :
    ((buildType1Combination group test filler).1 =
      [ (["bulldog"], [(group.getD 0 "", 3072), (group.getD 0 "", 2756)]),
        (["dachshund"], [(group.getD 1 "", 3072), (group.getD 1 "", 2756)]),
        (["labrador"], [(group.getD 2 "", 3072), (group.getD 2 "", 2756)]),
        (["corgi"], [(group.getD 3 "", 3072), (group.getD 3 "", 2756)]),
        (["bulldog", "dachshund", "labrador", "corgi"],
          [(filler, 96), (filler, 412)]) ])
    ∧ (3072 : Int) = ⌊(0.97 : ℚ) * 3168⌋
    ∧ (2756 : Int) = ⌊(0.87 : ℚ) * 3168⌋
    ∧ (∀ (env : Env) (root : String) (k : Nat), k < 4 →
        (((buildTrainSubsets env true root
            (buildType1Combination group test filler).1).getD k []).map pyLen).sum
          ≤ 3072 + 2756) := by
  have hlit : (buildType1Combination group test filler).1 =
      [ (["bulldog"], [(group.getD 0 "", 3072), (group.getD 0 "", 2756)]),
        (["dachshund"], [(group.getD 1 "", 3072), (group.getD 1 "", 2756)]),
        (["labrador"], [(group.getD 2 "", 3072), (group.getD 2 "", 2756)]),
        (["corgi"], [(group.getD 3 "", 3072), (group.getD 3 "", 2756)]),
        (["bulldog", "dachshund", "labrador", "corgi"],
          [(filler, 96), (filler, 412)]) ] := by
    norm_num [buildType1Combination, count097_eq, count087_eq]
  refine ⟨hlit, count097_eq.symm, count087_eq.symm, ?_⟩
  intro env root k hk
  rw [hlit]
  simp only [buildTrainSubsets, List.map_cons, List.map_nil]
  interval_cases k <;>
  · simp only [List.getD_cons_zero, List.getD_cons_succ, List.enum_cons,
      List.enumFrom_cons, List.enumFrom_nil, List.map_cons, List.map_nil,
      pyLen, List.sum_cons, List.sum_nil, Nat.add_zero]
    exact le_trans
      (Nat.add_le_add (toKeep_singleton_length_le _ _ 3072 (by norm_num))
        (toKeep_singleton_length_le _ _ 2756 (by norm_num)))
      (by decide)

/-- Witness for C2's amended theorem: the cap-sum bound instantiated at a
concrete environment, root and class index. -/
theorem type1_counts_witness :
    (((buildTrainSubsets env0 true "r"
        (buildType1Combination ["g0", "g1", "g2", "g3"] ["t0", "t1", "t2", "t3"] "fil").1).getD 0 []).map
      pyLen).sum ≤ 3072 + 2756 :=
  (type1_counts_amended ["g0", "g1", "g2", "g3"] ["t0", "t1", "t2", "t3"] "fil").2.2.2
    env0 "r" 0 (by decide)

/-- Counterexample for C2 as stated: the first cap produced by
`build_type1_combination` is 3072, but `round(0.97×3168) = 3073`; the two
differ, so the caps do not equal the rounded products. -/
theorem type1_counts_counterexample :
    ((buildType1Combination ["a", "b", "c", "d"] ["e", "f", "g", "h"] "i").1.getD 0
        ([], [])).2.getD 0 ("", 0) = ("a", 3072)
    ∧ ¬ ((3072 : Int) = round ((0.97 : ℚ) * 3168)) := by
  constructor
  · norm_num [buildType1Combination, count097_eq]
  · rw [round097_eq]
    decide

/-- C10 (amended): `get_torch_dataset` raises `ValueError` exactly for the
names whose lowercase form is `m2m` or `entire_dataset` — the two names the
download entry point accepts beyond the six-entry snapshot map.  Every name
that proceeds to loading is accepted by the download entry point, and the
download entry point also accepts `m2m` and `entire_dataset`, so the set of
names accepted by load is a strict subset of the set accepted by download.
(Names outside the eight-name download set fail
`download_spawrious_dataset`'s assertion — an `AssertionError`, not the
claimed `ValueError`.) -/
theorem load_validation_amended (name : String) :
    (getTorchDatasetValidation name = LoadOutcome.valueErr ↔
      (pyLower name = "m2m" ∨ pyLower name = "entire_dataset"))
    ∧ ((∃ f, getTorchDatasetValidation name = LoadOutcome.proceeds f) →
        downloadAccepted name = true)
    ∧ downloadAccepted "m2m" = true ∧ downloadAccepted "entire_dataset" = true := by
  refine ⟨?_, ?_, by decide, by decide⟩
  · by_cases h1 : pyLower name = "o2o_easy"
    · simp [getTorchDatasetValidation, downloadAccepted, downloadAllowedNames, filenameMap, h1]
    · by_cases h2 : pyLower name = "o2o_medium"
      · simp [getTorchDatasetValidation, downloadAccepted, downloadAllowedNames, filenameMap, h2]
      · by_cases h3 : pyLower name = "o2o_hard"
        · simp [getTorchDatasetValidation, downloadAccepted, downloadAllowedNames, filenameMap, h3]
        · by_cases h4 : pyLower name = "m2m_easy"
          · simp [getTorchDatasetValidation, downloadAccepted, downloadAllowedNames, filenameMap, h4]
          · by_cases h5 : pyLower name = "m2m_medium"
            · simp [getTorchDatasetValidation, downloadAccepted, downloadAllowedNames,
                filenameMap, h5]
            · by_cases h6 : pyLower name = "m2m_hard"
              · simp [getTorchDatasetValidation, downloadAccepted, downloadAllowedNames,
                  filenameMap, h6]
              · by_cases h7 : pyLower name = "m2m"
                · simp [getTorchDatasetValidation, downloadAccepted, downloadAllowedNames,
                    filenameMap, h7]
                · by_cases h8 : pyLower name = "entire_dataset"
                  · simp [getTorchDatasetValidation, downloadAccepted, downloadAllowedNames,
                      filenameMap, h8]
                  · simp [getTorchDatasetValidation, downloadAccepted, downloadAllowedNames,
                      h1, h2, h3, h4, h5, h6, h7, h8]
  · intro ⟨f, hf⟩
    unfold getTorchDatasetValidation at hf
    by_cases hacc : downloadAccepted name = true
    · exact hacc
    · rw [if_neg (by simpa using hacc)] at hf
      cases hf

/-- Witness for C10's amended theorem: the mixed-case name `M2M` is accepted
by download but makes `get_torch_dataset` raise `ValueError`. -/
theorem load_validation_witness :
    getTorchDatasetValidation "M2M" = LoadOutcome.valueErr :=
  (load_validation_amended "M2M").1.mpr (Or.inl (by decide))

/-- Counterexample for C10 as stated: the name `o2o_extreme` is outside the
six-entry snapshot map, yet `get_torch_dataset` does not raise `ValueError`
for it — the preceding `download_spawrious_dataset` assertion fails first. -/
theorem load_validation_counterexample :
    getTorchDatasetValidation "o2o_extreme" = LoadOutcome.assertionFailure
    ∧ getTorchDatasetValidation "o2o_extreme" ≠ LoadOutcome.valueErr := by
  constructor <;> decide

/-! ### Lemmas about `prepend_path` -/

theorem pyLen_concat (ds : List PyDataset) :
    pyLen (PyDataset.concat ds) = (ds.map pyLen).sum := by
  rw [pyLen]
  congr 1
  exact List.attach_map_coe ds pyLen

theorem forall₂_map_eq {α β γ : Type} {R : α → β → Prop} {f : α → γ} {g : β → γ}
    {l : List α} {l2 : List β} (h : List.Forall₂ R l l2)
    (hfg : ∀ a b, R a b → g b = f a) : l2.map g = l.map f := by
  induction h with
  | nil => rfl
  | cons hab _ ih => simp [hfg _ _ hab, ih]

theorem optionMapM_mem_exists {α β : Type} (f : α → Option β) :
    ∀ (l : List α) (l2 : List β), optionMapM f l = some l2 →
    ∀ b ∈ l2, ∃ a ∈ l, f a = some b := by
  intro l
  induction l with
  | nil =>
    intro l2 h b hb
    injection h with h1
    rw [← h1] at hb
    cases hb
  | cons a l ih =>
    intro l2 h b hb
    simp only [optionMapM] at h
    cases hfa : f a with
    | none => rw [hfa] at h; cases h
    | some b0 =>
      rw [hfa] at h
      cases hml : optionMapM f l with
      | none => rw [hml] at h; cases h
      | some bs =>
        rw [hml] at h
        injection h with h1
        rw [← h1] at hb
        cases List.mem_cons.mp hb with
        | inl hh => exact ⟨a, List.mem_cons_self a l, hh ▸ hfa⟩
        | inr hh =>
          obtain ⟨a2, ha2, hfa2⟩ := ih bs hml b hh
          exact ⟨a2, List.mem_cons_of_mem a ha2, hfa2⟩

theorem rewriteSub_of_shape (pre : String) {d : PyDataset} (h : IsSubShape d) :
    ∃ d2, rewriteSub pre d = some d2 ∧ subRewritten pre d d2 ∧ pyLen d2 = pyLen d := by
  obtain ⟨root, samples, idx, rfl⟩ := h
  refine ⟨_, rfl, ⟨rfl, rfl, rfl⟩, ?_⟩
  simp [pyLen]

theorem rewriteGroup_of_shape (pre : String) {d : PyDataset} (h : IsGroupShape d) :
    ∃ d2, rewriteGroup pre d = some d2 ∧ groupRewritten pre d d2 ∧ pyLen d2 = pyLen d := by
  obtain ⟨ds, rfl, hds⟩ := h
  obtain ⟨l2, hl2, hF⟩ := optionMapM_exists_forall₂ (rewriteSub pre)
    (fun a b => subRewritten pre a b ∧ pyLen b = pyLen a) ds
    (fun a ha => by
      obtain ⟨d2, h1, h2, h3⟩ := rewriteSub_of_shape pre (hds a ha)
      exact ⟨d2, h1, h2, h3⟩)
  refine ⟨PyDataset.concat l2, ?_, ?_, ?_⟩
  · simp [rewriteGroup, hl2]
  · exact hF.imp (fun a b h => h.1)
  · rw [pyLen_concat, pyLen_concat, forall₂_map_eq hF (fun a b h => h.2)]

theorem buildJoint_shape (forEach : List (List PyDataset)) (js : List PyDataset)
    (h : buildJoint forEach = some js)
    (hsub : ∀ gl ∈ forEach, ∀ d ∈ gl, IsSubShape d) :
    ∀ j ∈ js, IsGroupShape j := by
  cases forEach with
  | nil => simp [buildJoint] at h
  | cons g0 rest =>
    intro j hj
    have h2 : optionMapM
        (fun g => Option.map PyDataset.concat (optionMapM (fun gk => gk.get? g) (g0 :: rest)))
        (List.range g0.length) = some js := h
    obtain ⟨g, _, hfb⟩ := optionMapM_mem_exists _ _ _ h2 j hj
    cases hinner : optionMapM (fun gk => gk.get? g) (g0 :: rest) with
    | none => rw [hinner] at hfb; cases hfb
    | some parts =>
      rw [hinner] at hfb
      injection hfb with hfb1
      refine ⟨parts, hfb1.symm, ?_⟩
      intro d hd
      obtain ⟨gk, hgk, hget⟩ := optionMapM_mem_exists _ _ _ hinner d hd
      exact hsub gk hgk d (List.get?_mem hget)

theorem buildTrainSubsets_shape (env : Env) (type1 : Bool) (root : String)
    (tr : List (List String × List (String × Int))) :
    ∀ gl ∈ buildTrainSubsets env type1 root tr, ∀ d ∈ gl, IsSubShape d := by
  intro gl hgl d hd
  simp only [buildTrainSubsets, List.mem_map] at hgl
  obtain ⟨cg, _, rfl⟩ := hgl
  simp only [List.mem_map] at hd
  obtain ⟨p, _, rfl⟩ := hd
  exact ⟨_, _, _, rfl⟩

theorem buildTestSubsets_shape (env : Env) (type1 : Bool) (root : String)
    (te : List (List String × List String)) :
    ∀ gl ∈ buildTestSubsets env type1 root te, ∀ d ∈ gl, IsSubShape d := by
  intro gl hgl d hd
  simp only [buildTestSubsets, List.mem_map] at hgl
  obtain ⟨cg, _, rfl⟩ := hgl
  simp only [List.mem_map] at hd
  obtain ⟨p, _, rfl⟩ := hd
  exact ⟨_, _, _, rfl⟩

theorem benchmark_shape (env : Env) (type1 : Bool) (root : String)
    (tr : List (List String × List (String × Int)))
    (te : List (List String × List String)) (r : List PyDataset)
    (h : benchmarkDatasets env type1 root tr te = some r) :
    ∃ tg rest, r = PyDataset.concat tg :: rest
      ∧ (∀ x ∈ tg, IsGroupShape x) ∧ (∀ x ∈ rest, IsGroupShape x) := by
  unfold benchmarkDatasets at h
  cases htr : buildJoint (buildTrainSubsets env type1 root tr) with
  | none => rw [htr] at h; cases h
  | some trainList =>
    cases hte : buildJoint (buildTestSubsets env type1 root te) with
    | none => rw [htr, hte] at h; cases h
    | some testList =>
      rw [htr, hte] at h
      injection h with h1
      refine ⟨testList, trainList, h1.symm, ?_, ?_⟩
      · exact buildJoint_shape _ _ hte (buildTestSubsets_shape env type1 root te)
      · exact buildJoint_shape _ _ htr (buildTrainSubsets_shape env type1 root tr)

/-- C9: on every record assembled from dict-shaped combinations,
`prepend_path(new_root)` succeeds and rewrites the root of every underlying
image-folder collection and every sample's file path to
`os.path.join(new_root, old.replace("./data/", ""))` — removing the
placeholder prefix — while keeping every sample's class label and the kept
index lists, so the number of samples of every dataset in the record is
unchanged. -/
theorem prepend_path_rewrites (env : Env) (type1 : Bool) (root : String)
    (tr : List (List String × List (String × Int)))
    (te : List (List String × List String)) (pre : String) (r : List PyDataset)
    (h : benchmarkDatasets env type1 root tr te = some r) :
    ∃ r2, prependPath pre r = some r2
      ∧ recordRewritten pre r r2
      ∧ r2.map pyLen = r.map pyLen := by
  obtain ⟨tg, rest, rfl, htg, hrest⟩ := benchmark_shape env type1 root tr te _ h
  obtain ⟨tg2, htg2, hFtg⟩ := optionMapM_exists_forall₂ (rewriteGroup pre)
    (fun a b => groupRewritten pre a b ∧ pyLen b = pyLen a) tg
    (fun a ha => by
      obtain ⟨d2, h1, h2, h3⟩ := rewriteGroup_of_shape pre (htg a ha)
      exact ⟨d2, h1, h2, h3⟩)
  obtain ⟨rest2, hrest2, hFrest⟩ := optionMapM_exists_forall₂ (rewriteGroup pre)
    (fun a b => groupRewritten pre a b ∧ pyLen b = pyLen a) rest
    (fun a ha => by
      obtain ⟨d2, h1, h2, h3⟩ := rewriteGroup_of_shape pre (hrest a ha)
      exact ⟨d2, h1, h2, h3⟩)
  refine ⟨PyDataset.concat tg2 :: rest2, ?_, ?_, ?_⟩
  · simp [prependPath, htg2, hrest2]
  · exact ⟨hFtg.imp (fun a b hh => hh.1), hFrest.imp (fun a b hh => hh.1)⟩
  · simp only [List.map_cons, List.cons.injEq]
    constructor
    · rw [pyLen_concat, pyLen_concat, forall₂_map_eq hFtg (fun a b hh => hh.2)]
    · exact forall₂_map_eq hFrest (fun a b hh => hh.2)

/-- Witness for C9 at the concrete demo record assembled by the demo
environment and mappings. -/
theorem prepend_path_witness :
    ∃ r2, prependPath "/new" demoRecord = some r2
      ∧ recordRewritten "/new" demoRecord r2
      ∧ r2.map pyLen = demoRecord.map pyLen :=
  prepend_path_rewrites env0 false "root" demoTrainCombs demoTestCombs "/new"
    demoRecord (by rfl)


end Spawrious
